import Mathlib

/-!
Shallow embedding of the QuarterBand fetch-filter-score-rank pipeline
(src/app.py).  Python floats are modelled as rationals (ℚ), timestamps as
integers (ℤ).  A call to `cb_get` that raises (non-2xx / network error) is
modelled as `Except Unit`; a JSON field that is missing or non-numeric is
modelled as `none` (the source helper `f(d, k, dflt=0.0)` turns it into the
default `0.0`, embedded as `Option.getD 0`).

`math.log10` is transcendental, so `probability_score` takes the log10
function as an explicit parameter; every claim about it holds for an
arbitrary such parameter because its contribution is clamped to [0, 1].

`hourly_seasonality` wraps its whole body in a blanket try/except returning
`None`; its numeric content (per-day z-scores, which need a real square
root) is not the subject of any claim, so its per-pair result is supplied
as part of the upstream environment (`Upstream.season`), preserving exactly
the visible contract: a total function into `Option`.
-/

namespace QB

attribute [local semireducible] Rat.add Rat.mul Rat.inv Rat.sub Rat.ofScientific

/-- Ok-test for `Except` (models: the call did not raise). -/
def exOk {ε α : Type} : Except ε α → Bool
  | .ok _ => true
  | .error _ => false

instance {ε α : Type} [DecidableEq ε] [DecidableEq α] : DecidableEq (Except ε α) := fun
  | .ok a, .ok b => if h : a = b then .isTrue (by rw [h]) else .isFalse (by simp [h])
  | .ok _, .error _ => .isFalse (by simp)
  | .error _, .ok _ => .isFalse (by simp)
  | .error e, .error f => if h : e = f then .isTrue (by rw [h]) else .isFalse (by simp [h])

/-- One element of the `GET /products` response. -/
structure RawProduct where
  id : String
  base_currency : String
  quote_currency : String
  status : String
  trading_disabled : Bool
deriving DecidableEq

/-- Output of `list_usd_products`: id plus base symbol. -/
structure Product where
  id : String
  base : String
deriving DecidableEq

/-- `GET /products/{pair}/ticker` payload (fields may be missing/malformed). -/
structure Ticker where
  price : Option ℚ
  bid : Option ℚ
  ask : Option ℚ
deriving DecidableEq

/-- `GET /products/{pair}/stats` payload. -/
structure Stats where
  open_ : Option ℚ
  high : Option ℚ
  low : Option ℚ
  volume : Option ℚ
deriving DecidableEq

/-- One candle row `[time, low, high, open, close, volume]`. -/
structure Candle where
  time : ℤ
  low : ℚ
  high : ℚ
  open_ : ℚ
  close : ℚ
  volume : ℚ
deriving DecidableEq

/-- Parameters of one `GET /products/{pair}/candles` sub-request. -/
structure CandleReq where
  pair : String
  start : ℤ
  end_ : ℤ
  granularity : ℕ
deriving DecidableEq

/-- The upstream exchange API, as seen through `cb_get`: each endpoint either
returns a payload or raises.  `season pair` is the (never-raising) result of
`hourly_seasonality pair`. -/
structure Upstream (σ : Type) where
  products : Except Unit (List RawProduct)
  ticker : String → Except Unit Ticker
  stats : String → Except Unit Stats
  candles : CandleReq → Except Unit (List Candle)
  season : String → Option σ

/-- The env-tunable configuration constants of app.py. -/
structure Config where
  PRICE_MIN : ℚ
  PRICE_MAX : ℚ
  TOP_K : ℕ
  MIN_COUNT : ℕ
  EXPAND_STEP : ℚ
  MAX_PRICE_CAP : ℚ
  MIN_24H_DOLLAR_VOL : ℚ
  MAX_SPREAD_PCT : ℚ
  SYMBOL_WHITELIST : List String
  SYMBOL_BLACKLIST : List String
deriving DecidableEq

/-- The snapshot dict produced by `fetch_snapshot`. -/
structure Snap where
  pair : String
  price : ℚ
  open_ : ℚ
  high : ℚ
  low : ℚ
  volume : ℚ
  bid : ℚ
  ask : ℚ
  spread_pct : ℚ
  ts : ℤ
deriving DecidableEq

/-- Models the inner helper `f(d, k, dflt=0.0)`: a missing or non-float
field becomes the default `0.0`. -/
def fnum (x : Option ℚ) : ℚ := x.getD 0

/-- `list_usd_products`: keep online, trading-enabled USD markets. -/
def usdFilter (ps : List RawProduct) : List Product :=
  (ps.filter fun p =>
      decide (p.quote_currency = "USD") && decide (p.status = "online") && !p.trading_disabled).map
    fun p => { id := p.id, base := p.base_currency }

def list_usd_products {σ : Type} (u : Upstream σ) : Except Unit (List Product) :=
  (u.products).map usdFilter

/-- `mid = (bid + ask) / 2.0 if (bid > 0 and ask > 0) else (price or 0.0)`. -/
def snapMid (bid ask price : ℚ) : ℚ :=
  if 0 < bid ∧ 0 < ask then (bid + ask) / 2 else price

/-- `spread_pct = ((ask - bid) / mid) if (bid > 0 and ask > 0 and mid > 0) else 1.0`. -/
def snapSpread (bid ask mid : ℚ) : ℚ :=
  if 0 < bid ∧ 0 < ask ∧ 0 < mid then (ask - bid) / mid else 1

/-- The pure tail of `fetch_snapshot`, once both endpoint payloads arrived. -/
def mkSnap (pair : String) (now : ℤ) (t : Ticker) (s : Stats) : Snap :=
  { pair := pair
    price := fnum t.price
    open_ := fnum s.open_
    high := fnum s.high
    low := fnum s.low
    volume := fnum s.volume
    bid := fnum t.bid
    ask := fnum t.ask
    spread_pct := snapSpread (fnum t.bid) (fnum t.ask)
      (snapMid (fnum t.bid) (fnum t.ask) (fnum t.price))
    ts := now }

/-- `fetch_snapshot`: two unguarded `cb_get` calls, then pure assembly.  An
exception from either endpoint propagates to the caller. -/
def fetch_snapshot {σ : Type} (u : Upstream σ) (now : ℤ) (pair : String) :
    Except Unit Snap := do
  let t ← u.ticker pair
  let s ← u.stats pair
  pure (mkSnap pair now t s)

/-- Characters before the first dash: `pair.split("-")[0]`, over the
character list (the core `String.splitOn` is opaque to kernel reduction). -/
def baseChars : List Char → List Char
  | [] => []
  | c :: cs => if c = '-' then [] else c :: baseChars cs

/-- `pair.split("-")[0].upper()` (symbols are ASCII). -/
def baseOf (pair : String) : String :=
  String.mk ((baseChars pair.data).map Char.toUpper)

/-- `coinbase_links`. -/
structure Links where
  advanced : String
  price : String
deriving DecidableEq

def coinbase_links (pair : String) : Links :=
  let base := String.mk ((baseChars pair.data).map Char.toLower)
  { advanced := "https://www.coinbase.com/advanced-trade/spot/" ++ pair
    price := "https://www.coinbase.com/price/" ++ base }

/-- `clamp(x, lo, hi) = max(lo, min(hi, x))`. -/
def clamp (x lo hi : ℚ) : ℚ := max lo (min hi x)

/-- `is_quality`: blacklist, optional whitelist, 24h dollar volume, spread. -/
def is_quality (cfg : Config) (snap : Snap) : Bool :=
  if baseOf snap.pair ∈ cfg.SYMBOL_BLACKLIST then false
  else if cfg.SYMBOL_WHITELIST ≠ [] ∧ baseOf snap.pair ∉ cfg.SYMBOL_WHITELIST then false
  else if snap.price * snap.volume < cfg.MIN_24H_DOLLAR_VOL then false
  else if cfg.MAX_SPREAD_PCT < snap.spread_pct then false
  else true

/-- `probability_score`, with `math.log10` as the parameter `g`. -/
def probability_score (g : ℚ → ℚ) (snap : Snap) : ℚ :=
  let p := snap.price
  let o := snap.open_
  let h := snap.high
  let l := snap.low
  let v := snap.volume
  if o ≤ 0 ∨ p ≤ 0 then 0.05
  else
    let mom_raw := clamp ((p - o) / o) (-0.20) 0.20
    let m := (mom_raw + 0.20) / 0.40
    let exp_raw := clamp ((h - l) / max o 1e-9) 0.0 0.25
    let e := exp_raw / 0.25
    let v_scaled := clamp ((g (max v 1e-6) - 0) / 8) 0.0 1.0
    let score := 0.50 * m + 0.35 * e + 0.15 * v_scaled
    clamp (0.05 + 0.90 * score) 0.01 0.99

/-- `[s for s in all_snaps if eff_min <= s["price"] <= eff_max]`. -/
def candidatesAt (cfg : Config) (snaps : List Snap) (effMax : ℚ) : List Snap :=
  snaps.filter fun s => decide (cfg.PRICE_MIN ≤ s.price ∧ s.price ≤ effMax)

/-- The adaptive-widening `while` loop of `index`, fuelled; returns the final
effective upper bound together with the number of widenings performed. -/
def widenLoop (cfg : Config) (snaps : List Snap) : ℕ → ℚ → ℚ × ℕ
  | 0, effMax => (effMax, 0)
  | fuel + 1, effMax =>
    if (candidatesAt cfg snaps effMax).length < cfg.MIN_COUNT ∧ effMax < cfg.MAX_PRICE_CAP then
      let r := widenLoop cfg snaps fuel (min (effMax + cfg.EXPAND_STEP) cfg.MAX_PRICE_CAP)
      (r.1, r.2 + 1)
    else (effMax, 0)

/-- Fuel that (for a positive step) is proved sufficient for `widenLoop` to
reach its genuine exit condition. -/
def widenFuel (cfg : Config) : ℕ :=
  (⌈(cfg.MAX_PRICE_CAP - cfg.PRICE_MAX) / cfg.EXPAND_STEP⌉).toNat + 1

/-- One entry of `ranked_input` / `ranked`. -/
structure Ranked (σ : Type) where
  snap : Snap
  prob : ℚ
  links : Links
  seasonality : Option σ
deriving DecidableEq

/-- Comparator of `sorted(ranked_input, key=lambda x: x["prob"], reverse=True)`:
`a` may precede `b` iff `a`'s probability is at least `b`'s. -/
def rankGe {σ : Type} (a b : Ranked σ) : Prop := b.prob ≤ a.prob

instance {σ : Type} : DecidableRel (rankGe (σ := σ)) :=
  fun a b => decidable_of_iff (b.prob ≤ a.prob) Iff.rfl

instance {σ : Type} : IsTotal (Ranked σ) rankGe :=
  ⟨fun a b => le_total b.prob a.prob⟩

instance {σ : Type} : IsTrans (Ranked σ) rankGe :=
  ⟨fun _ _ _ hab hbc => le_trans hbc hab⟩

/-- The Python sort: stable, by descending probability. -/
def sortRanked {σ : Type} (l : List (Ranked σ)) : List (Ranked σ) :=
  List.insertionSort rankGe l

/-- `sorted(ranked_input, key=..., reverse=True)[:TOP_K]`. -/
def rank {σ : Type} (topK : ℕ) (l : List (Ranked σ)) : List (Ranked σ) :=
  (sortRanked l).take topK

def toRankedEntry {σ : Type} (g : ℚ → ℚ) (s : Snap) : Ranked σ :=
  { snap := s, prob := probability_score g s, links := coinbase_links s.pair,
    seasonality := none }

/-- What the route renders: ranked list plus the effective price window. -/
structure RenderData (σ : Type) where
  ranked : List (Ranked σ)
  eff_min : ℚ
  eff_max : ℚ
deriving DecidableEq

/-- Steps 1-2 of `index`: snapshot every product, silently dropping any
product whose snapshot fetch raised, then the quality filter. -/
def snapshotsOf {σ : Type} (u : Upstream σ) (now : ℤ) (products : List Product) : List Snap :=
  products.filterMap fun p => (fetch_snapshot u now p.id).toOption

def qualitySnaps {σ : Type} (cfg : Config) (u : Upstream σ) (now : ℤ)
    (products : List Product) : List Snap :=
  (snapshotsOf u now products).filter fun s => is_quality cfg s

/-- Steps 2-6 of `index` (everything after the product list arrived). -/
def buildRender {σ : Type} (cfg : Config) (u : Upstream σ) (now : ℤ) (g : ℚ → ℚ)
    (products : List Product) : RenderData σ :=
  let all_snaps := qualitySnaps cfg u now products
  let eff_max := (widenLoop cfg all_snaps (widenFuel cfg) cfg.PRICE_MAX).1
  let candidates := candidatesAt cfg all_snaps eff_max
  let ranked_input : List (Ranked σ) := candidates.map (toRankedEntry g)
  let ranked := (rank cfg.TOP_K ranked_input).map fun r =>
    { r with seasonality := u.season r.snap.pair }
  { ranked := ranked, eff_min := cfg.PRICE_MIN, eff_max := eff_max }

/-- The `index` route body: the product-list fetch is the single unguarded
raise point; everything after it is pure. -/
def index {σ : Type} (cfg : Config) (u : Upstream σ) (now : ℤ) (g : ℚ → ℚ) :
    Except Unit (RenderData σ) :=
  (list_usd_products u).map (buildRender cfg u now g)

/-- Hours in the lookback window: `int((now - start).total_seconds() // gran)`
with `start = now - timedelta(days=days)`. -/
def totalHours (days gran : ℕ) : ℕ := days * 86400 / gran

/-- The sub-request loop of `fetch_hourly_candles`; also records the issued
requests.  A raising sub-request propagates (stopping the loop). -/
def candlesLoop (oracle : CandleReq → Except Unit (List Candle)) (pair : String)
    (gran : ℕ) (remaining : ℕ) (cursorEnd : ℤ) :
    Except Unit (List CandleReq × List Candle) :=
  if h : remaining = 0 then .ok ([], [])
  else
    let take := min 300 remaining
    let cursorStart := cursorEnd - (gran * take : ℕ)
    let req : CandleReq := ⟨pair, cursorStart, cursorEnd, gran⟩
    match oracle req with
    | .error e => .error e
    | .ok data =>
      match candlesLoop oracle pair gran (remaining - take) cursorStart with
      | .error e => .error e
      | .ok (reqs, rest) => .ok (req :: reqs, data ++ rest)
termination_by remaining
decreasing_by
  exact Nat.sub_lt (Nat.pos_of_ne_zero h) (lt_min (by norm_num) (Nat.pos_of_ne_zero h))

/-- Ascending-by-timestamp order used by `candles.sort(key=lambda c: c[0])`. -/
def candleLe (a b : Candle) : Prop := a.time ≤ b.time

instance : DecidableRel candleLe :=
  fun a b => decidable_of_iff (a.time ≤ b.time) Iff.rfl

instance : IsTotal Candle candleLe := ⟨fun a b => le_total a.time b.time⟩

instance : IsTrans Candle candleLe := ⟨fun _ _ _ => le_trans⟩

/-- `fetch_hourly_candles`: chunked fetch, then sort ascending by time. -/
def fetch_hourly_candles (oracle : CandleReq → Except Unit (List Candle))
    (pair : String) (now : ℤ) (days : ℕ) (gran : ℕ) : Except Unit (List Candle) :=
  (candlesLoop oracle pair gran (totalHours days gran) now).map fun r =>
    List.insertionSort candleLe r.2

/-- The issued sub-requests sequentially tile the interval from `lo` up to
`hi` (most recent chunk first, each next chunk ending where the previous
started). -/
def covers (hi lo : ℤ) : List CandleReq → Prop
  | [] => hi = lo
  | q :: qs => q.end_ = hi ∧ covers q.start lo qs

/-! Concrete instances used by counterexamples and witnesses. -/

/-- The default configuration of app.py (env defaults). -/
def defaultConfig : Config :=
  { PRICE_MIN := 0.10, PRICE_MAX := 0.25, TOP_K := 5, MIN_COUNT := 5,
    EXPAND_STEP := 0.05, MAX_PRICE_CAP := 0.40, MIN_24H_DOLLAR_VOL := 10000000,
    MAX_SPREAD_PCT := 0.010, SYMBOL_WHITELIST := [],
    SYMBOL_BLACKLIST := ["USLESS", "COOKIE", "PNUT", "PEPE", "SHIB", "FLOKI", "WIF", "BONK"] }

/-- `defaultConfig` with the widening cap raised to $1.00. -/
def cfg15 : Config := { defaultConfig with MAX_PRICE_CAP := 1 }

/-- An upstream on which every endpoint raises. -/
def uerr : Upstream Unit :=
  { products := .error (), ticker := fun _ => .error (), stats := fun _ => .error (),
    candles := fun _ => .error (), season := fun _ => none }

/-- A permissive test configuration (wide band, no volume floor, 50% spread cap). -/
def cfgW : Config :=
  { PRICE_MIN := 0, PRICE_MAX := 1, TOP_K := 5, MIN_COUNT := 1, EXPAND_STEP := 0.05,
    MAX_PRICE_CAP := 0.40, MIN_24H_DOLLAR_VOL := 0, MAX_SPREAD_PCT := 0.5,
    SYMBOL_WHITELIST := [], SYMBOL_BLACKLIST := [] }

def pGood : RawProduct :=
  { id := "AAA-USD", base_currency := "AAA", quote_currency := "USD", status := "online",
    trading_disabled := false }

def pBad : RawProduct :=
  { id := "BBB-USD", base_currency := "BBB", quote_currency := "USD", status := "online",
    trading_disabled := false }

def tkGood : Ticker := { price := some 0.5, bid := some 0.49, ask := some 0.51 }

def stGood : Stats := { open_ := some 0.4, high := some 0.6, low := some 0.3, volume := some 1000 }

/-- A ticker whose bid field is missing (degrades to 0.0 in the snapshot). -/
def tkBad : Ticker := { price := some 0.5, bid := none, ask := some 0.51 }

def tickerW (p : String) : Except Unit Ticker :=
  if p = "AAA-USD" then .ok tkGood else if p = "BBB-USD" then .ok tkBad else .error ()

def statsW (p : String) : Except Unit Stats :=
  if p = "AAA-USD" then .ok stGood else if p = "BBB-USD" then .ok stGood else .error ()

/-- A healthy upstream serving two products, one with a broken book. -/
def uW : Upstream Unit :=
  { products := .ok [pGood, pBad], ticker := tickerW, stats := statsW,
    candles := fun _ => .error (), season := fun _ => none }

/-- A listed product whose per-product endpoints raise (`tickerW` and
`statsW` answer only for AAA-USD and BBB-USD). -/
def pFail : RawProduct :=
  { id := "CCC-USD", base_currency := "CCC", quote_currency := "USD", status := "online",
    trading_disabled := false }

/-- `uW` extended with a product whose snapshot fetch raises. -/
def uW2 : Upstream Unit :=
  { products := .ok [pGood, pBad, pFail], ticker := tickerW, stats := statsW,
    candles := fun _ => .error (), season := fun _ => none }

def snapGood : Snap := mkSnap "AAA-USD" 0 tkGood stGood

def snapBad : Snap := mkSnap "BBB-USD" 0 tkBad stGood

def entryGood : Ranked Unit :=
  { snap := snapGood, prob := 163 / 200, links := coinbase_links "AAA-USD", seasonality := none }

def rdW : RenderData Unit := { ranked := [entryGood], eff_min := 0, eff_max := 1 }

/-- The book of end-to-end scenario 2 of the spec: bid 0.998, ask 1.002. -/
def tk2 : Ticker := { price := some 1, bid := some 0.998, ask := some 1.002 }

def st2 : Stats := { open_ := none, high := none, low := none, volume := none }

/-- Two equal-probability ranked entries whose dollar volumes differ. -/
def snapA : Snap :=
  { pair := "AAA-USD", price := 1, open_ := 1, high := 1, low := 1, volume := 1, bid := 1,
    ask := 1, spread_pct := 0, ts := 0 }

def snapB : Snap := { snapA with pair := "BBB-USD", volume := 2 }

def rkA : Ranked Unit :=
  { snap := snapA, prob := 0.5, links := coinbase_links "AAA-USD", seasonality := none }

def rkB : Ranked Unit :=
  { snap := snapB, prob := 0.5, links := coinbase_links "BBB-USD", seasonality := none }

/-- A snapshot with non-positive open and price (scoring edge case). -/
def snapZero : Snap :=
  { pair := "ZZZ-USD", price := 0, open_ := 0, high := 0, low := 0, volume := 0, bid := 0,
    ask := 0, spread_pct := 1, ts := 0 }

/-- A candle endpoint that always answers with an empty page. -/
def orcW : CandleReq → Except Unit (List Candle) := fun _ => .ok []

/-! Helper lemmas. -/

@[simp] theorem exOk_ok {ε α : Type} (a : α) : exOk (Except.ok a : Except ε α) = true := rfl

@[simp] theorem exOk_error {ε α : Type} (e : ε) :
    exOk (Except.error e : Except ε α) = false := rfl

@[simp] theorem exbind_ok {ε α β : Type} (a : α) (f : α → Except ε β) :
    (Except.ok a : Except ε α) >>= f = f a := rfl

@[simp] theorem exbind_error {ε α β : Type} (e : ε) (f : α → Except ε β) :
    (Except.error e : Except ε α) >>= f = Except.error e := rfl

@[simp] theorem exmap_ok {ε α β : Type} (a : α) (f : α → β) :
    (Except.ok a : Except ε α).map f = Except.ok (f a) := rfl

@[simp] theorem exmap_error {ε α β : Type} (e : ε) (f : α → β) :
    (Except.error e : Except ε α).map f = Except.error e := rfl

/-- `clamp` keeps its argument inside `[lo, hi]` whenever `lo ≤ hi`. -/
theorem clamp_mem (x lo hi : ℚ) (h : lo ≤ hi) : lo ≤ clamp x lo hi ∧ clamp x lo hi ≤ hi :=
  ⟨le_max_left _ _, max_le h (min_le_left _ _)⟩


/-- C5: for every snapshot (all rational inputs) the probability score lies in
[0.01, 0.99], and a non-positive open or price yields the fixed floor 0.05;
the function is a pure total Lean function of its arguments. -/
theorem C5_probability_score_range (g : ℚ → ℚ) (snap : Snap) :
    0.01 ≤ probability_score g snap ∧ probability_score g snap ≤ 0.99 ∧
      ((snap.open_ ≤ 0 ∨ snap.price ≤ 0) → probability_score g snap = 0.05) := by
  unfold probability_score
  by_cases hz : snap.open_ ≤ 0 ∨ snap.price ≤ 0
  · rw [if_pos hz]
    refine ⟨by norm_num, by norm_num, fun _ => rfl⟩
  · rw [if_neg hz]
    have h := clamp_mem (0.05 + 0.90 * (0.50 * ((clamp ((snap.price - snap.open_) / snap.open_)
      (-0.20) 0.20 + 0.20) / 0.40) + 0.35 * (clamp ((snap.high - snap.low) / max snap.open_ 1e-9)
      0.0 0.25 / 0.25) + 0.15 * clamp ((g (max snap.volume 1e-6) - 0) / 8) 0.0 1.0)) 0.01 0.99
      (by norm_num)
    exact ⟨h.1, h.2, fun hc => absurd hc hz⟩

/-- C5 witness: at a zero-price snapshot the score is the 0.05 floor and the
bounds hold. -/
theorem C5_witness :
    0.01 ≤ probability_score (fun _ => 0) snapZero ∧
      probability_score (fun _ => 0) snapZero = 0.05 :=
  ⟨(C5_probability_score_range (fun _ => 0) snapZero).1,
   (C5_probability_score_range (fun _ => 0) snapZero).2.2 (Or.inl (by norm_num [snapZero]))⟩

/-- C2 counterexample: for bid 0.998 and ask 1.002 the stored spread field is
0.004 = (ask - bid)/mid, not 0.4: the code does not multiply by 100. -/
theorem C2_counterexample :
    (mkSnap "XYZ-USD" 0 tk2 st2).spread_pct =
        (1.002 - 0.998) / ((0.998 + 1.002) / 2) ∧
      (mkSnap "XYZ-USD" 0 tk2 st2).spread_pct = 1 / 250 ∧
      ¬ (mkSnap "XYZ-USD" 0 tk2 st2).spread_pct = 0.4 := by
  refine ⟨by decide, by decide, by decide⟩

/-- C2 amended: with both sides of the book positive, the spread field equals
(ask - bid) / mid with mid = (bid + ask)/2 — a fraction of mid, multiplied by
100 only at display time; for bid 0.998, ask 1.002 it is 0.004. -/
theorem C2_spread_formula (pair : String) (now : ℤ) (t : Ticker) (s : Stats)
    (hb : 0 < fnum t.bid) (ha : 0 < fnum t.ask) :
    (mkSnap pair now t s).spread_pct =
      (fnum t.ask - fnum t.bid) / ((fnum t.bid + fnum t.ask) / 2) := by
  have hmid : 0 < (fnum t.bid + fnum t.ask) / 2 := by positivity
  simp [mkSnap, snapSpread, snapMid, hb, ha, hmid]

/-- C2 witness: the amended formula applied to the concrete book of the spec
scenario. -/
theorem C2_witness :
    (mkSnap "XYZ-USD" 0 tk2 st2).spread_pct =
      (fnum tk2.ask - fnum tk2.bid) / ((fnum tk2.bid + fnum tk2.ask) / 2) :=
  C2_spread_formula "XYZ-USD" 0 tk2 st2 (by decide) (by decide)


@[simp] theorem expure_ok {ε α : Type} (a : α) : (pure a : Except ε α) = Except.ok a := rfl

/-- C4 counterexample: when the ticker endpoint raises, `fetch_snapshot`
raises past its own boundary instead of degrading a field. -/
theorem C4_counterexample : fetch_snapshot uerr 0 "XYZ-USD" = .error () := rfl

/-- C4 amended: `fetch_snapshot` succeeds exactly when both the ticker and the
stats endpoint succeed — an endpoint failure propagates to the caller (which
drops the whole product); only a missing or malformed field inside a
successful payload degrades, to the default 0.0. -/
theorem C4_fetch_snapshot_boundary {σ : Type} (u : Upstream σ) (now : ℤ) (pair : String) :
    exOk (fetch_snapshot u now pair) = (exOk (u.ticker pair) && exOk (u.stats pair)) ∧
      (∀ t s, u.ticker pair = .ok t → u.stats pair = .ok s →
        fetch_snapshot u now pair = .ok (mkSnap pair now t s)) ∧
      (∀ (t : Ticker) (s : Stats) (pr : String) (n : ℤ),
        (mkSnap pr n t s).price = t.price.getD 0 ∧ (mkSnap pr n t s).bid = t.bid.getD 0 ∧
          (mkSnap pr n t s).ask = t.ask.getD 0 ∧ (mkSnap pr n t s).open_ = s.open_.getD 0 ∧
          (mkSnap pr n t s).high = s.high.getD 0 ∧ (mkSnap pr n t s).low = s.low.getD 0 ∧
          (mkSnap pr n t s).volume = s.volume.getD 0) := by
  refine ⟨?_, fun t s ht hs => by simp [fetch_snapshot, ht, hs],
    fun t s pr n => ⟨rfl, rfl, rfl, rfl, rfl, rfl, rfl⟩⟩
  cases ht : u.ticker pair <;> cases hs : u.stats pair <;> simp [fetch_snapshot, ht, hs]

/-- C4 witness: the success path evaluated on a concrete upstream. -/
theorem C4_witness : fetch_snapshot uW 0 "AAA-USD" = .ok (mkSnap "AAA-USD" 0 tkGood stGood) :=
  (C4_fetch_snapshot_boundary uW 0 "AAA-USD").2.1 tkGood stGood (by decide) (by decide)

/-- C3 counterexample: two candidates with equal probability and different
24h dollar volumes keep their input order — the ranker does not tie-break by
descending volume. -/
theorem C3_counterexample :
    rank 5 [rkA, rkB] = [rkA, rkB] ∧ rkA.prob = rkB.prob ∧
      rkA.snap.price * rkA.snap.volume < rkB.snap.price * rkB.snap.volume ∧
      rkA ≠ rkB := by
  refine ⟨by decide, by decide, by decide, by decide⟩

/-- Stability of one ordered insertion, measured per probability class. -/
theorem filter_orderedInsert_prob {σ : Type} (q : ℚ) (a : Ranked σ) (s : List (Ranked σ)) :
    (List.orderedInsert rankGe a s).filter (fun x => decide (x.prob = q)) =
      if a.prob = q then a :: s.filter (fun x => decide (x.prob = q))
      else s.filter (fun x => decide (x.prob = q)) := by
  induction s with
  | nil =>
    by_cases haq : a.prob = q <;> simp [List.orderedInsert, List.filter, haq]
  | cons b t ih =>
    by_cases hr : rankGe a b
    · by_cases haq : a.prob = q <;> by_cases hbq : b.prob = q <;>
        simp [List.orderedInsert, if_pos hr, List.filter_cons, haq, hbq]
    · have hlt : a.prob < b.prob := not_le.mp hr
      by_cases haq : a.prob = q
      · have hbq : ¬ b.prob = q := by
          intro hb
          exact absurd (show rankGe a b from le_of_eq (hb.trans haq.symm)) hr
        simp [List.orderedInsert, if_neg hr, List.filter_cons, hbq, ih, haq]
      · by_cases hbq : b.prob = q <;>
          simp [List.orderedInsert, if_neg hr, List.filter_cons, hbq, ih, haq]

/-- Stability of the whole sort, measured per probability class. -/
theorem filter_sortRanked_prob {σ : Type} (q : ℚ) (l : List (Ranked σ)) :
    (sortRanked l).filter (fun x => decide (x.prob = q)) =
      l.filter (fun x => decide (x.prob = q)) := by
  induction l with
  | nil => rfl
  | cons a t ih =>
    have : sortRanked (a :: t) = List.orderedInsert rankGe a (sortRanked t) := rfl
    rw [this, filter_orderedInsert_prob]
    by_cases haq : a.prob = q <;> simp [List.filter_cons, haq, ih]

/-- C3 amended: the ranker sorts by descending probability only (volume is
never consulted), the sort is stable — candidates of equal probability keep
their input order — and the result is truncated to top-K. -/
theorem C3_rank_desc_prob_stable {σ : Type} (topK : ℕ) (l : List (Ranked σ)) :
    rank topK l = (sortRanked l).take topK ∧
      List.Sorted rankGe (sortRanked l) ∧
      List.Perm (sortRanked l) l ∧
      (rank topK l).length ≤ topK ∧
      ∀ q : ℚ, (sortRanked l).filter (fun x => decide (x.prob = q)) =
        l.filter (fun x => decide (x.prob = q)) := by
  refine ⟨rfl, List.sorted_insertionSort rankGe l, List.perm_insertionSort rankGe l, ?_,
    fun q => filter_sortRanked_prob q l⟩
  simp only [rank, List.length_take]
  exact min_le_left _ _


/-- One widening step shrinks the remaining-steps bound. -/
theorem ceil_step_le (c m s : ℚ) (hs : 0 < s) (hm : m < c) :
    (⌈(c - min (m + s) c) / s⌉).toNat + 1 ≤ (⌈(c - m) / s⌉).toNat := by
  rcases le_total c (m + s) with h | h
  · rw [min_eq_right h, sub_self, zero_div]
    have h2 : 0 < (c - m) / s := div_pos (by linarith) hs
    have h3 : 0 < ⌈(c - m) / s⌉ := Int.ceil_pos.mpr h2
    simp only [Int.ceil_zero, Int.toNat_zero]
    omega
  · rw [min_eq_left h]
    have he : (c - (m + s)) / s = (c - m) / s - 1 := by
      field_simp
      ring
    rw [he, Int.ceil_sub_one]
    have h2 : (1 : ℚ) ≤ (c - m) / s := (le_div_iff₀ hs).mpr (by linarith)
    have h3 : (1 : ℤ) ≤ ⌈(c - m) / s⌉ := by
      have := (Int.le_ceil ((c - m) / s)).trans (le_refl _)
      exact_mod_cast Int.one_le_ceil_iff.mpr (by linarith)
    omega

/-- The widening count never exceeds the ceiling bound. -/
theorem widenLoop_count_le (cfg : Config) (snaps : List Snap) (hs : 0 < cfg.EXPAND_STEP) :
    ∀ (fuel : ℕ) (effMax : ℚ),
      (widenLoop cfg snaps fuel effMax).2 ≤
        (⌈(cfg.MAX_PRICE_CAP - effMax) / cfg.EXPAND_STEP⌉).toNat := by
  intro fuel
  induction fuel with
  | zero => intro effMax; simp [widenLoop]
  | succ n ih =>
    intro effMax
    rw [widenLoop]
    split_ifs with hc
    · have h1 := ih (min (effMax + cfg.EXPAND_STEP) cfg.MAX_PRICE_CAP)
      have h2 := ceil_step_le cfg.MAX_PRICE_CAP effMax cfg.EXPAND_STEP hs hc.2
      simp only []
      omega
    · simp

/-- The loop only ever raises the bound, and not beyond the cap. -/
theorem widenLoop_mono (cfg : Config) (snaps : List Snap) (hs : 0 < cfg.EXPAND_STEP) :
    ∀ (fuel : ℕ) (effMax : ℚ),
      effMax ≤ (widenLoop cfg snaps fuel effMax).1 ∧
        (widenLoop cfg snaps fuel effMax).1 ≤ max effMax cfg.MAX_PRICE_CAP := by
  intro fuel
  induction fuel with
  | zero => intro effMax; exact ⟨le_refl _, le_max_left _ _⟩
  | succ n ih =>
    intro effMax
    rw [widenLoop]
    split_ifs with hc
    · have hstep : effMax ≤ min (effMax + cfg.EXPAND_STEP) cfg.MAX_PRICE_CAP :=
        le_min (by linarith) (le_of_lt hc.2)
      have h1 := ih (min (effMax + cfg.EXPAND_STEP) cfg.MAX_PRICE_CAP)
      refine ⟨le_trans hstep h1.1, le_trans h1.2 ?_⟩
      have : max (min (effMax + cfg.EXPAND_STEP) cfg.MAX_PRICE_CAP) cfg.MAX_PRICE_CAP =
          cfg.MAX_PRICE_CAP := max_eq_right (min_le_right _ _)
      rw [this]
      exact le_max_right _ _
    · exact ⟨le_refl _, le_max_left _ _⟩

/-- With enough fuel the loop stops only because its guard is false. -/
theorem widenLoop_exits (cfg : Config) (snaps : List Snap) (hs : 0 < cfg.EXPAND_STEP) :
    ∀ (fuel : ℕ) (effMax : ℚ),
      (⌈(cfg.MAX_PRICE_CAP - effMax) / cfg.EXPAND_STEP⌉).toNat ≤ fuel →
      ¬ ((candidatesAt cfg snaps (widenLoop cfg snaps fuel effMax).1).length < cfg.MIN_COUNT ∧
          (widenLoop cfg snaps fuel effMax).1 < cfg.MAX_PRICE_CAP) := by
  intro fuel
  induction fuel with
  | zero =>
    intro effMax hb
    have h0 : ⌈(cfg.MAX_PRICE_CAP - effMax) / cfg.EXPAND_STEP⌉ ≤ 0 := by omega
    have h1 : (cfg.MAX_PRICE_CAP - effMax) / cfg.EXPAND_STEP ≤ 0 := by
      exact_mod_cast Int.ceil_le.mp h0
    rw [widenLoop]
    intro hc
    have hpos : 0 < (cfg.MAX_PRICE_CAP - effMax) / cfg.EXPAND_STEP :=
      div_pos (by linarith [hc.2]) hs
    linarith
  | succ n ih =>
    intro effMax hb
    rw [widenLoop]
    split_ifs with hc
    · have h2 := ceil_step_le cfg.MAX_PRICE_CAP effMax cfg.EXPAND_STEP hs hc.2
      exact ih (min (effMax + cfg.EXPAND_STEP) cfg.MAX_PRICE_CAP) (by omega)
    · exact hc


/-- Inversion for the route body: success means the product list arrived and
the result is the pure render build. -/
theorem index_ok_iff {σ : Type} (cfg : Config) (u : Upstream σ) (now : ℤ) (g : ℚ → ℚ)
    (rd : RenderData σ) :
    index cfg u now g = .ok rd ↔
      ∃ ps, u.products = .ok ps ∧ rd = buildRender cfg u now g (usdFilter ps) := by
  unfold index list_usd_products
  cases hp : u.products <;> simp [hp, eq_comm]

/-- C6: the adaptive widening loop is monotone (the upper bound only grows,
never beyond the cap; the lower bound of the window is the configured
minimum throughout), it performs at most ceil((cap - start)/step) widenings,
with that much fuel it halts with its guard genuinely false, and for
start 0.25, cap 1.00, step 0.05 it widens at most 15 times. -/
theorem C6_widening (cfg : Config) (hs : 0 < cfg.EXPAND_STEP) :
    (∀ (snaps : List Snap) (fuel : ℕ) (effMax : ℚ),
        effMax ≤ (widenLoop cfg snaps fuel effMax).1) ∧
      (∀ (snaps : List Snap) (fuel : ℕ) (effMax : ℚ), effMax ≤ cfg.MAX_PRICE_CAP →
        (widenLoop cfg snaps fuel effMax).1 ≤ cfg.MAX_PRICE_CAP) ∧
      (∀ {σ : Type} (u : Upstream σ) (now : ℤ) (g : ℚ → ℚ) (rd : RenderData σ),
        index cfg u now g = .ok rd → rd.eff_min = cfg.PRICE_MIN) ∧
      (∀ (snaps : List Snap) (fuel : ℕ) (effMax : ℚ),
        (widenLoop cfg snaps fuel effMax).2 ≤
          (⌈(cfg.MAX_PRICE_CAP - effMax) / cfg.EXPAND_STEP⌉).toNat) ∧
      (∀ (snaps : List Snap) (fuel : ℕ) (effMax : ℚ),
        (⌈(cfg.MAX_PRICE_CAP - effMax) / cfg.EXPAND_STEP⌉).toNat ≤ fuel →
        ¬ ((candidatesAt cfg snaps (widenLoop cfg snaps fuel effMax).1).length < cfg.MIN_COUNT ∧
            (widenLoop cfg snaps fuel effMax).1 < cfg.MAX_PRICE_CAP)) ∧
      (cfg.PRICE_MAX = 0.25 → cfg.MAX_PRICE_CAP = 1 → cfg.EXPAND_STEP = 0.05 →
        ∀ (snaps : List Snap) (fuel : ℕ),
          (widenLoop cfg snaps fuel cfg.PRICE_MAX).2 ≤ 15) := by
  refine ⟨fun snaps fuel effMax => (widenLoop_mono cfg snaps hs fuel effMax).1,
    fun snaps fuel effMax hle => le_trans (widenLoop_mono cfg snaps hs fuel effMax).2
      (by rw [max_eq_right hle]),
    ?_, fun snaps => widenLoop_count_le cfg snaps hs,
    fun snaps => widenLoop_exits cfg snaps hs, ?_⟩
  · intro σ u now g rd h
    obtain ⟨ps, _, hrd⟩ := (index_ok_iff cfg u now g rd).mp h
    rw [hrd]
    rfl
  · intro h1 h2 h3 snaps fuel
    have hcount := widenLoop_count_le cfg snaps hs fuel cfg.PRICE_MAX
    rw [h2, h3] at hcount
    rw [h1] at hcount ⊢
    have hq : ((1 : ℚ) - 0.25) / 0.05 = ((15 : ℤ) : ℚ) := by norm_num
    rw [hq, Int.ceil_intCast] at hcount
    simpa using hcount

/-- C6 witness: a positive step, evaluated at the spec scenario band. -/
theorem C6_witness :
    (0 : ℚ) < cfg15.EXPAND_STEP ∧ (widenLoop cfg15 [] 20 cfg15.PRICE_MAX).2 ≤ 15 :=
  ⟨by norm_num [cfg15, defaultConfig],
    (C6_widening cfg15 (by norm_num [cfg15, defaultConfig])).2.2.2.2.2 rfl rfl rfl [] 20⟩


/-- Full behaviour of the candle sub-request loop when no call raises: every
sub-request spans at most 300 rows, the requests tile the whole window, their
number is exactly ceil(remaining/300), and the returned rows are the
concatenation of the per-request responses in request order. -/
theorem candlesLoop_spec (oracle : CandleReq → Except Unit (List Candle)) (pair : String)
    (gran : ℕ) (hok : ∀ q, exOk (oracle q) = true) :
    ∀ (remaining : ℕ) (cursorEnd : ℤ), ∃ reqs raw,
      candlesLoop oracle pair gran remaining cursorEnd = .ok (reqs, raw) ∧
        (∀ q ∈ reqs, q.end_ - q.start ≤ 300 * (gran : ℤ) ∧ q.granularity = gran ∧
          q.pair = pair) ∧
        covers cursorEnd (cursorEnd - (gran : ℤ) * (remaining : ℤ)) reqs ∧
        reqs.length = (remaining + 299) / 300 ∧
        raw = (reqs.map fun q => (oracle q).toOption.getD []).flatten := by
  intro remaining
  induction remaining using Nat.strong_induction_on with
  | _ remaining ih =>
    intro cursorEnd
    by_cases h0 : remaining = 0
    · subst h0
      refine ⟨[], [], ?_, by simp, by simp [covers], by simp, by simp⟩
      rw [candlesLoop]
      simp
    · have htake : 0 < min 300 remaining := lt_min (by norm_num) (Nat.pos_of_ne_zero h0)
      have hlt : remaining - min 300 remaining < remaining :=
        Nat.sub_lt (Nat.pos_of_ne_zero h0) htake
      set take := min 300 remaining with hts
      set cursorStart := cursorEnd - (gran * take : ℕ) with hcs
      set req : CandleReq := ⟨pair, cursorStart, cursorEnd, gran⟩ with hreq
      obtain ⟨data, hdata⟩ : ∃ data, oracle req = .ok data := by
        cases hq : oracle req with
        | ok d => exact ⟨d, rfl⟩
        | error e => have := hok req; rw [hq] at this; simp at this
      obtain ⟨reqs, raw, hrec, hspan, hcov, hlen, hraw⟩ := ih (remaining - take) hlt cursorStart
      refine ⟨req :: reqs, data ++ raw, ?_, ?_, ?_, ?_, ?_⟩
      · rw [candlesLoop]
        simp only [dif_neg h0]
        rw [← hts, ← hcs, ← hreq, hdata, hrec]
      · intro q hq
        rcases List.mem_cons.mp hq with hq | hq
        · subst hq
          refine ⟨?_, rfl, rfl⟩
          show cursorEnd - cursorStart ≤ 300 * (gran : ℤ)
          rw [hcs]
          have h300 : gran * take ≤ 300 * gran := by
            calc gran * take ≤ gran * 300 := Nat.mul_le_mul_left _ (min_le_left _ _)
              _ = 300 * gran := Nat.mul_comm _ _
          have hz : ((gran * take : ℕ) : ℤ) ≤ 300 * (gran : ℤ) := by exact_mod_cast h300
          linarith
        · exact hspan q hq
      · refine ⟨rfl, ?_⟩
        show covers cursorStart (cursorEnd - (gran : ℤ) * (remaining : ℤ)) reqs
        have htr : take ≤ remaining := min_le_right _ _
        have harith : cursorStart - (gran : ℤ) * ((remaining - take : ℕ) : ℤ) =
            cursorEnd - (gran : ℤ) * (remaining : ℤ) := by
          rw [hcs]
          push_cast [htr]
          ring
        rw [← harith]
        exact hcov
      · simp only [List.length_cons, hlen]
        omega
      · rw [hraw]
        simp [hdata, Except.toOption]


/-- C8: for any lookback window, every candle sub-request spans at most 300
rows, the sequential sub-requests tile the whole range, the loop halts after
exactly ceil(total/300) requests, and the returned series is the
concatenation of all sub-request results sorted ascending by timestamp,
whatever order each response was in. -/
theorem C8_candles_chunked (oracle : CandleReq → Except Unit (List Candle)) (pair : String)
    (now : ℤ) (days gran : ℕ) (hok : ∀ q, exOk (oracle q) = true) :
    ∃ reqs raw,
      candlesLoop oracle pair gran (totalHours days gran) now = .ok (reqs, raw) ∧
        (∀ q ∈ reqs, q.end_ - q.start ≤ 300 * (gran : ℤ)) ∧
        covers now (now - (gran : ℤ) * (totalHours days gran : ℤ)) reqs ∧
        reqs.length = (totalHours days gran + 299) / 300 ∧
        raw = (reqs.map fun q => (oracle q).toOption.getD []).flatten ∧
        fetch_hourly_candles oracle pair now days gran =
          .ok (List.insertionSort candleLe raw) ∧
        List.Sorted candleLe (List.insertionSort candleLe raw) ∧
        List.Perm (List.insertionSort candleLe raw) raw := by
  obtain ⟨reqs, raw, h1, h2, h3, h4, h5⟩ :=
    candlesLoop_spec oracle pair gran hok (totalHours days gran) now
  refine ⟨reqs, raw, h1, fun q hq => (h2 q hq).1, h3, h4, h5, ?_,
    List.sorted_insertionSort candleLe _, List.perm_insertionSort candleLe _⟩
  unfold fetch_hourly_candles
  rw [h1]
  rfl

/-- C8 witness: the chunking property evaluated against an endpoint that
always answers with an empty page, for the default 30-day hourly window. -/
theorem C8_witness :
    ∃ reqs raw,
      candlesLoop orcW "DOGE-USD" 3600 (totalHours 30 3600) 1000000 = .ok (reqs, raw) ∧
        (∀ q ∈ reqs, q.end_ - q.start ≤ 300 * ((3600 : ℕ) : ℤ)) ∧
        covers 1000000 (1000000 - ((3600 : ℕ) : ℤ) * (totalHours 30 3600 : ℤ)) reqs ∧
        reqs.length = (totalHours 30 3600 + 299) / 300 ∧
        raw = (reqs.map fun q => (orcW q).toOption.getD []).flatten ∧
        fetch_hourly_candles orcW "DOGE-USD" 1000000 30 3600 =
          .ok (List.insertionSort candleLe raw) ∧
        List.Sorted candleLe (List.insertionSort candleLe raw) ∧
        List.Perm (List.insertionSort candleLe raw) raw :=
  C8_candles_chunked orcW "DOGE-USD" 1000000 30 3600 (fun _ => rfl)


/-- Decomposition of the quality gate into its four conjuncts. -/
theorem is_quality_true_iff (cfg : Config) (s : Snap) :
    is_quality cfg s = true ↔
      baseOf s.pair ∉ cfg.SYMBOL_BLACKLIST ∧
        (cfg.SYMBOL_WHITELIST = [] ∨ baseOf s.pair ∈ cfg.SYMBOL_WHITELIST) ∧
        cfg.MIN_24H_DOLLAR_VOL ≤ s.price * s.volume ∧
        s.spread_pct ≤ cfg.MAX_SPREAD_PCT := by
  unfold is_quality
  constructor
  · intro h
    split_ifs at h with h1 h2 h3 h4
    refine ⟨h1, ?_, not_lt.mp h3, not_lt.mp h4⟩
    by_cases hwl : cfg.SYMBOL_WHITELIST = []
    · exact Or.inl hwl
    · right
      by_contra hmem
      exact h2 ⟨hwl, hmem⟩
  · rintro ⟨g1, g2, g3, g4⟩
    rw [if_neg g1, if_neg ?_, if_neg (not_lt.mpr g3), if_neg (not_lt.mpr g4)]
    rintro ⟨hne, hnm⟩
    rcases g2 with h | h
    · exact hne h
    · exact hnm h

/-- A successful snapshot fetch stamps the requested pair into the result. -/
theorem fetch_ok_pair {σ : Type} (u : Upstream σ) (now : ℤ) (pid : String) (s : Snap)
    (h : fetch_snapshot u now pid = .ok s) : s.pair = pid := by
  unfold fetch_snapshot at h
  cases ht : u.ticker pid with
  | error e => rw [ht] at h; simp at h
  | ok t =>
    cases hs : u.stats pid with
    | error e => rw [ht, hs] at h; simp at h
    | ok st =>
      rw [ht, hs] at h
      simp at h
      rw [← h]
      rfl

/-- Anatomy of a ranked entry: it comes from a successful, quality-passing,
in-band snapshot, and carries that snapshot's score. -/
theorem mem_ranked_spec {σ : Type} (cfg : Config) (u : Upstream σ) (now : ℤ) (g : ℚ → ℚ)
    (rd : RenderData σ) (x : Ranked σ)
    (h1 : index cfg u now g = .ok rd) (h2 : x ∈ rd.ranked) :
    is_quality cfg x.snap = true ∧
      cfg.PRICE_MIN ≤ x.snap.price ∧ x.snap.price ≤ rd.eff_max ∧
      fetch_snapshot u now x.snap.pair = .ok x.snap ∧
      x.prob = probability_score g x.snap := by
  obtain ⟨ps, hp, hrd⟩ := (index_ok_iff cfg u now g rd).mp h1
  subst hrd
  unfold buildRender at h2 ⊢
  simp only [List.mem_map] at h2
  obtain ⟨r, hr, hx⟩ := h2
  have hr2 : r ∈ sortRanked (List.map (toRankedEntry g)
      (candidatesAt cfg (qualitySnaps cfg u now (usdFilter ps))
        ((widenLoop cfg (qualitySnaps cfg u now (usdFilter ps)) (widenFuel cfg)
          cfg.PRICE_MAX).1))) := List.take_subset _ _ hr
  have hr3 := (List.perm_insertionSort rankGe _).subset hr2
  simp only [List.mem_map] at hr3
  obtain ⟨s, hs, hrs⟩ := hr3
  have hsnap : x.snap = s := by rw [← hx, ← hrs]; rfl
  have hprob : x.prob = probability_score g s := by rw [← hx, ← hrs]; rfl
  simp only [candidatesAt, List.mem_filter, decide_eq_true_eq] at hs
  obtain ⟨hs1, hband⟩ := hs
  simp only [qualitySnaps, List.mem_filter] at hs1
  obtain ⟨hs2, hqual⟩ := hs1
  simp only [snapshotsOf, List.mem_filterMap] at hs2
  obtain ⟨p, _, hfet⟩ := hs2
  have hfet2 : fetch_snapshot u now p.id = .ok s := by
    cases hf : fetch_snapshot u now p.id with
    | error e => rw [hf] at hfet; simp [Except.toOption] at hfet
    | ok s2 => rw [hf] at hfet; simp [Except.toOption] at hfet; rw [hfet]
  have hpair : s.pair = p.id := fetch_ok_pair u now p.id s hfet2
  rw [hsnap, hprob]
  exact ⟨hqual, hband.1, hband.2, by rw [hpair]; exact hfet2, rfl⟩


/-- C7: every entry of the ranked output passed every eligibility gate —
blacklist, whitelist (when configured), effective price band, liquidity and
spread — so failing any one gate keeps an asset out; and the liquidity gate
is inclusive: a dollar volume exactly at the floor passes. -/
theorem C7_gates_conjunction {σ : Type} (cfg : Config) (u : Upstream σ) (now : ℤ)
    (g : ℚ → ℚ) (rd : RenderData σ) (x : Ranked σ)
    (h1 : index cfg u now g = .ok rd) (h2 : x ∈ rd.ranked) :
    is_quality cfg x.snap = true ∧
      baseOf x.snap.pair ∉ cfg.SYMBOL_BLACKLIST ∧
      (cfg.SYMBOL_WHITELIST ≠ [] → baseOf x.snap.pair ∈ cfg.SYMBOL_WHITELIST) ∧
      cfg.MIN_24H_DOLLAR_VOL ≤ x.snap.price * x.snap.volume ∧
      x.snap.spread_pct ≤ cfg.MAX_SPREAD_PCT ∧
      cfg.PRICE_MIN ≤ x.snap.price ∧ x.snap.price ≤ rd.eff_max ∧
      (∀ s : Snap, baseOf s.pair ∉ cfg.SYMBOL_BLACKLIST →
        (cfg.SYMBOL_WHITELIST = [] ∨ baseOf s.pair ∈ cfg.SYMBOL_WHITELIST) →
        s.price * s.volume = cfg.MIN_24H_DOLLAR_VOL →
        s.spread_pct ≤ cfg.MAX_SPREAD_PCT →
        is_quality cfg s = true) := by
  obtain ⟨hq, hmin, hmax, _, _⟩ := mem_ranked_spec cfg u now g rd x h1 h2
  obtain ⟨b1, b2, b3, b4⟩ := (is_quality_true_iff cfg x.snap).mp hq
  refine ⟨hq, b1, ?_, b3, b4, hmin, hmax, ?_⟩
  · intro hne
    rcases b2 with h | h
    · exact absurd h hne
    · exact h
  · intro s g1 g2 g3 g4
    exact (is_quality_true_iff cfg s).mpr ⟨g1, g2, le_of_eq g3.symm, g4⟩

/-- C7 witness: the gate conjunction evaluated on a concrete ranked entry. -/
theorem C7_witness :
    is_quality cfgW entryGood.snap = true ∧ cfgW.PRICE_MIN ≤ entryGood.snap.price :=
  ⟨(C7_gates_conjunction cfgW uW 0 (fun _ => 0) rdW entryGood (by decide) (by decide)).1,
   (C7_gates_conjunction cfgW uW 0 (fun _ => 0) rdW entryGood (by decide)
      (by decide)).2.2.2.2.2.1⟩

/-- C1 counterexample: a failing product-list fetch propagates out of the
route body — the caller gets the exception, not a snapshot or empty list. -/
theorem C1_counterexample : index defaultConfig uerr 0 (fun _ => 0) = .error () := rfl

/-- C1 amended: the route raises exactly when the product-list fetch raises
(the boundary equation holds for every upstream); when the product list
arrives, the route always serves the complete freshly built result; every
served entry carries a completely fetched snapshot; and a product whose own
snapshot fetch raised is silently dropped — it never surfaces in the output
while the route still succeeds.  There is no cache: each request recomputes
the list. -/
theorem C1_request_boundary {σ : Type} (cfg : Config) (u : Upstream σ) (now : ℤ)
    (g : ℚ → ℚ) :
    exOk (index cfg u now g) = exOk u.products ∧
      (∀ ps, u.products = .ok ps →
        index cfg u now g = .ok (buildRender cfg u now g (usdFilter ps))) ∧
      (∀ (rd : RenderData σ) (x : Ranked σ), index cfg u now g = .ok rd → x ∈ rd.ranked →
        fetch_snapshot u now x.snap.pair = .ok x.snap) ∧
      (∀ ps (p : Product), u.products = .ok ps → p ∈ usdFilter ps →
        fetch_snapshot u now p.id = .error () →
        ∀ (rd : RenderData σ) (x : Ranked σ), index cfg u now g = .ok rd →
          x ∈ rd.ranked → x.snap.pair ≠ p.id) := by
  refine ⟨?_, ?_, ?_, ?_⟩
  · unfold index list_usd_products
    cases hp : u.products <;> simp
  · intro ps hp
    unfold index list_usd_products
    rw [hp]
    rfl
  · intro rd x h1 h2
    exact (mem_ranked_spec cfg u now g rd x h1 h2).2.2.2.1
  · intro ps p hp hmem hfail rd x h1 h2 hpair
    have hok := (mem_ranked_spec cfg u now g rd x h1 h2).2.2.2.1
    rw [hpair, hfail] at hok
    exact Except.noConfusion hok

/-- C1 witness: on an upstream whose listed product CCC-USD has a raising
snapshot fetch, the boundary equation holds, the route serves the complete
build, the served entry's snapshot fetch succeeded, and the failing product
was dropped rather than surfaced. -/
theorem C1_witness :
    exOk (index cfgW uW2 0 (fun _ => 0)) = exOk uW2.products ∧
      index cfgW uW2 0 (fun _ => 0) =
        .ok (buildRender cfgW uW2 0 (fun _ => 0) (usdFilter [pGood, pBad, pFail])) ∧
      fetch_snapshot uW2 0 entryGood.snap.pair = .ok entryGood.snap ∧
      fetch_snapshot uW2 0 "CCC-USD" = .error () ∧
      entryGood.snap.pair ≠ "CCC-USD" :=
  ⟨(C1_request_boundary cfgW uW2 0 (fun _ => 0)).1,
   (C1_request_boundary cfgW uW2 0 (fun _ => 0)).2.1 [pGood, pBad, pFail] rfl,
   (C1_request_boundary cfgW uW2 0 (fun _ => 0)).2.2.1 rdW entryGood (by decide) (by decide),
   by decide,
   (C1_request_boundary cfgW uW2 0 (fun _ => 0)).2.2.2 [pGood, pBad, pFail]
     ⟨"CCC-USD", "CCC"⟩ rfl (by decide) (by decide) rdW entryGood (by decide) (by decide)⟩

/-- C9: two runs of the pipeline over extensionally equal upstream data (and
the same clock and log table) produce identical rendered output. -/
theorem C9_pipeline_deterministic {σ : Type} (cfg : Config) (u1 u2 : Upstream σ)
    (now : ℤ) (g : ℚ → ℚ) (hp : u1.products = u2.products)
    (ht : ∀ p, u1.ticker p = u2.ticker p) (hs : ∀ p, u1.stats p = u2.stats p)
    (hc : ∀ q, u1.candles q = u2.candles q) (hn : ∀ p, u1.season p = u2.season p) :
    index cfg u1 now g = index cfg u2 now g := by
  have he : u1 = u2 := by
    cases u1
    cases u2
    simp only [Upstream.mk.injEq]
    exact ⟨hp, funext ht, funext hs, funext hc, funext hn⟩
  rw [he]

/-- C9 witness: determinism instantiated on a concrete upstream. -/
theorem C9_witness : index cfgW uW 0 (fun _ => 0) = index cfgW uW 0 (fun _ => 0) :=
  C9_pipeline_deterministic cfgW uW uW 0 (fun _ => 0) rfl (fun _ => rfl) (fun _ => rfl)
    (fun _ => rfl) (fun _ => rfl)

/-- C10: a snapshot whose bid or ask is not strictly positive gets the
maximal fallback spread 1.0 (100%), so under any spread cap below 1.0 it
fails the quality gate and can never be a ranked entry. -/
theorem C10_unknown_spread_excluded {σ : Type} (cfg : Config) (u : Upstream σ)
    (now : ℤ) (g : ℚ → ℚ) (pair : String) (t : Ticker) (s : Stats)
    (rd : RenderData σ) (x : Ranked σ)
    (ht : u.ticker pair = .ok t) (hs : u.stats pair = .ok s)
    (hba : fnum t.bid ≤ 0 ∨ fnum t.ask ≤ 0) (hmax : cfg.MAX_SPREAD_PCT < 1)
    (h1 : index cfg u now g = .ok rd) (h2 : x ∈ rd.ranked) :
    fetch_snapshot u now pair = .ok (mkSnap pair now t s) ∧
      (mkSnap pair now t s).spread_pct = 1 ∧
      is_quality cfg (mkSnap pair now t s) = false ∧
      x.snap ≠ mkSnap pair now t s := by
  have hfet : fetch_snapshot u now pair = .ok (mkSnap pair now t s) := by
    simp [fetch_snapshot, ht, hs]
  have hspread : (mkSnap pair now t s).spread_pct = 1 := by
    have hno : ¬ (0 < fnum t.bid ∧ 0 < fnum t.ask ∧
        0 < snapMid (fnum t.bid) (fnum t.ask) (fnum t.price)) := by
      rintro ⟨hb, ha, _⟩
      rcases hba with h | h
      · linarith
      · linarith
    simp [mkSnap, snapSpread, hno]
  have hqual : is_quality cfg (mkSnap pair now t s) = false := by
    cases hq : is_quality cfg (mkSnap pair now t s) with
    | false => rfl
    | true =>
      obtain ⟨_, _, _, b4⟩ := (is_quality_true_iff _ _).mp hq
      rw [hspread] at b4
      linarith
  refine ⟨hfet, hspread, hqual, ?_⟩
  intro hx
  have hxq := (mem_ranked_spec cfg u now g rd x h1 h2).1
  rw [hx, hqual] at hxq
  exact Bool.noConfusion hxq

/-- C10 witness: the broken-book product of the concrete upstream is stamped
with spread 1, fails quality, and differs from the one ranked entry. -/
theorem C10_witness :
    fetch_snapshot uW 0 "BBB-USD" = .ok snapBad ∧ snapBad.spread_pct = 1 ∧
      is_quality cfgW snapBad = false ∧ entryGood.snap ≠ snapBad :=
  C10_unknown_spread_excluded cfgW uW 0 (fun _ => 0) "BBB-USD" tkBad stGood rdW entryGood
    (by decide) (by decide) (Or.inl (by decide)) (by norm_num [cfgW]) (by decide) (by decide)

end QB
